import Mathlib

/-!
Verification of the interposer ("review") program against its specification.

The repository contains two variants of the same tool:

* a Go variant (src/main.go) that launches the worker over a PTY, frames its
  output into lines, forwards every line to the observer, detects
  AskUserQuestion tool invocations, resolves them by invoking a reviewer
  subprocess (askReviewer), and writes a tool_result answer envelope back; and
* a TypeScript variant (src/unnamed/part_000) built on an agent SDK whose
  askReviewer maps each question to a selected option label.

The definitions below are shallow embeddings of those source functions.
External effects (the JSON decoder and the reviewer subprocess) are passed in
as explicit parameters or oracle data, so every definition is executable.
-/

/-- Model of one option of a question (Go struct Option / TS opt objects). -/
structure QOption where
  label : String
  description : String
deriving DecidableEq, Repr

/-- Model of Go struct Question / the TS question objects. -/
structure Question where
  question : String
  header : String
  options : List QOption
  multiSelect : Bool
deriving DecidableEq, Repr

/-- Model of Go struct AskUserQuestionInput. -/
structure AskUserQuestionInput where
  questions : List Question
deriving DecidableEq, Repr

/-- Outcome of invoking the reviewer subprocess: either the invocation fails
(non-zero exit, I/O error, or in the TS variant a timeout caught by the
try/catch) or it succeeds with some textual output. -/
inductive ReviewerOutcome where
  | failure
  | success (output : String)
deriving DecidableEq, Repr

/-- Whitespace test used by strings.TrimSpace / String.prototype.trim,
restricted to the ASCII whitespace characters. -/
def isSpaceChar (c : Char) : Bool :=
  c = ' ' || c = '\t' || c = '\n' || c = '\x0b' || c = '\x0c' || c = '\r'

/-- Trim whitespace from both ends of a character list. -/
def trimChars (l : List Char) : List Char :=
  ((l.dropWhile isSpaceChar).reverse.dropWhile isSpaceChar).reverse

/-- Model of strings.TrimSpace (Go) and output.trim() (TS). -/
def goTrim (s : String) : String := ⟨trimChars s.data⟩

/-- Scan a character sequence for the first ASCII digit in 1..9 and return
digit - 1; this is the digit loop shared by both askReviewer variants. -/
def firstDigit : List Char → Option Nat
  | [] => none
  | c :: rest => if '1' ≤ c ∧ c ≤ '9' then some (c.toNat - '1'.toNat) else firstDigit rest

/-- Decimal digit to character, as rendered by fmt.Sprintf with a d verb. -/
def digitChar : Nat → Char
  | 0 => '0'
  | 1 => '1'
  | 2 => '2'
  | 3 => '3'
  | 4 => '4'
  | 5 => '5'
  | 6 => '6'
  | 7 => '7'
  | 8 => '8'
  | _ => '9'

/-- Least-significant-first decimal digits of a natural number, with explicit
fuel so the definition is structural (fuel n is always enough). -/
def toDecRevFuel : Nat → Nat → List Nat
  | 0, _ => []
  | _ + 1, 0 => []
  | fuel + 1, n + 1 => ((n + 1) % 10) :: toDecRevFuel fuel ((n + 1) / 10)

/-- Least-significant-first decimal digits of a natural number. -/
def toDecRev (n : Nat) : List Nat := toDecRevFuel n n

/-- Model of fmt.Sprintf with a d verb on a non-negative integer: standard
decimal rendering. -/
def sprintfD (n : Nat) : String :=
  if n = 0 then "0" else ⟨((toDecRev n).reverse.map digitChar)⟩

/-- Key used by the Go askReviewer for question number i: "q" followed by the
decimal rendering of i (fmt.Sprintf of "q%d"). -/
def qKey (i : Nat) : String := "q" ++ sprintfD i

/-- Value of a least-significant-first digit list. -/
def undigits : List Nat → Nat
  | [] => 0
  | d :: ds => d + 10 * undigits ds

/-- Model of a Go map assignment m[k] = v on a map kept as an association
list: overwrite the binding if the key is present, append otherwise. -/
def mapSet {α : Type} (m : List (String × α)) (k : String) (v : α) : List (String × α) :=
  if m.any (fun p => decide (p.1 = k)) then
    m.map (fun p => if p.1 = k then (p.1, v) else p)
  else m ++ [(k, v)]

/-- The default answers built by the Go askReviewer: key "q i" maps to "0"
for every question index i. -/
def defaultAnswers (n : Nat) : List (String × String) :=
  (List.range n).map (fun i => (qKey i, "0"))

/-- Model of the Go askReviewer (src/main.go): on reviewer failure it returns
the all-zero default answers and emits a diagnostic (the Bool component); on
success it starts from the defaults and, if the trimmed output contains an
ASCII digit 1..9, overwrites the entry for key "q0" with digit - 1. -/
def askReviewer (questions : List Question) (outcome : ReviewerOutcome) :
    List (String × String) × Bool :=
  match outcome with
  | .failure => (defaultAnswers questions.length, true)
  | .success output =>
    let answerText := goTrim output
    let answers := defaultAnswers questions.length
    match firstDigit answerText.data with
    | some d => (mapSet answers "q0" (sprintfD d), false)
    | none => (answers, false)

/-- Model of the per-question index selection of the TS askReviewer
(src/unnamed/part_000): default 0, overwritten by the first digit 1..9 found
in the trimmed output, then reset to 0 when out of range for this question. -/
def tsSelectedIndex (q : Question) (answerText : String) : Nat :=
  let d := match firstDigit answerText.data with
    | some d => d
    | none => 0
  if q.options.length ≤ d then 0 else d

/-- The list of option indices the TS askReviewer selects, one per question,
in question order. -/
def tsSelectedIndices (questions : List Question) (output : String) : List Nat :=
  questions.map (fun q => tsSelectedIndex q (goTrim output))

/-- Model of the JavaScript a-or-else-b operator on possibly-undefined
strings: the empty string and undefined are falsy. -/
def jsOr (a b : Option String) : Option String :=
  match a with
  | some s => if s = "" then b else some s
  | none => b

/-- Value stored by the TS askReviewer on success for one question: the label
of the selected option, or of the first option when that label is falsy. -/
def tsAnswerValue (q : Question) (i : Nat) : Option String :=
  jsOr ((q.options[i]?).map QOption.label) ((q.options[0]?).map QOption.label)

/-- Value stored by the TS askReviewer on failure for one question: the label
of the first option, or the literal "option1" when that is falsy. -/
def tsFailValue (q : Question) : Option String :=
  jsOr ((q.options[0]?).map QOption.label) (some "option1")

/-- Model of the TS askReviewer: a record keyed by question text; on failure
every question maps to its first option label (or "option1"), on success to
the label of the clamped selected index. -/
def tsAskReviewer (questions : List Question) (outcome : ReviewerOutcome) :
    List (String × Option String) :=
  match outcome with
  | .failure => questions.foldl (fun acc q => mapSet acc q.question (tsFailValue q)) []
  | .success output =>
    questions.foldl
      (fun acc q => mapSet acc q.question (tsAnswerValue q (tsSelectedIndex q (goTrim output)))) []

/-- Model of Go struct ToolResult. -/
structure ToolResult where
  type : String
  tool_use_id : String
  content : String
deriving DecidableEq, Repr

/-- Model of Go struct UserMessage. -/
structure UserMessage where
  role : String
  content : List ToolResult
deriving DecidableEq, Repr

/-- Model of Go struct UserResponse. -/
structure UserResponse where
  type : String
  message : UserMessage
deriving DecidableEq, Repr

/-- Model of the Go createResponse: formats the answers map as "k: v" pairs
joined by commas and wraps them in a user message with one tool_result item
addressed to the originating tool use id. -/
def createResponse (toolUseID : String) (answers : List (String × String)) : UserResponse :=
  let parts := answers.map (fun p => p.1 ++ ": " ++ p.2)
  let content := String.intercalate ", " parts
  ⟨"user", ⟨"user", [⟨"tool_result", toolUseID, content⟩]⟩⟩

/-- Escape of one character as performed by Go encoding/json.Marshal inside a
string literal (default encoder, HTML escaping on). -/
def jsonEscapeChar (c : Char) : String :=
  if c = '"' then "\\\""
  else if c = '\\' then "\\\\"
  else if c = '\n' then "\\n"
  else if c = '\r' then "\\r"
  else if c = '\t' then "\\t"
  else if c = '<' then "\\u003c"
  else if c = '>' then "\\u003e"
  else if c = '&' then "\\u0026"
  else if c.toNat < 32 then
    "\\u00" ++ ⟨[digitChar (c.toNat / 16 % 10), digitChar (c.toNat % 16 % 10)]⟩
  else String.singleton c

/-- Escape of a whole string as performed by Go encoding/json.Marshal. -/
def jsonEscape (s : String) : String := String.join (s.data.map jsonEscapeChar)

/-- Serialization of a ToolResult by Go encoding/json.Marshal (struct fields
in declaration order, tags type, tool_use_id, content). -/
def marshalToolResult (t : ToolResult) : String :=
  "\x7b\"type\":\"" ++ jsonEscape t.type ++ "\",\"tool_use_id\":\"" ++
    jsonEscape t.tool_use_id ++ "\",\"content\":\"" ++ jsonEscape t.content ++ "\"\x7d"

/-- Serialization of a UserResponse by Go encoding/json.Marshal. -/
def marshalUserResponse (r : UserResponse) : String :=
  "\x7b\"type\":\"" ++ jsonEscape r.type ++ "\",\"message\":\x7b\"role\":\"" ++
    jsonEscape r.message.role ++ "\",\"content\":[" ++
    String.intercalate "," (r.message.content.map marshalToolResult) ++ "]\x7d\x7d"

/-- The marker the Go read loop uses to recognize a PTY echo of its own
input: a line beginning with this text is skipped before classification. -/
def echoMarker : String := "\x7b\"type\":\"user_input_result\""

/-- Relevant fields of a decoded content item of an assistant turn (Go struct
ContentItem); input is the result of decoding the item input into
AskUserQuestionInput, none when that third-stage decode fails. -/
structure ContentItem where
  type : String
  name : String
  id : String
  input : Option AskUserQuestionInput
deriving DecidableEq, Repr

/-- Result of the structured decoding stages applied to one line: malformed
when json.Unmarshal into StreamMessage fails; otherwise the stream type
together with the result of the second-stage assistant decode (none when
unmarshalling into AssistantStreamMessage fails). -/
inductive DecodeResult where
  | malformed
  | message (ty : String) (content : Option (List ContentItem))
deriving DecidableEq, Repr

/-- One framed worker line together with the behaviour of the JSON decoder on
it (the decoder is external library code, supplied as oracle data). -/
structure WorkerLine where
  raw : String
  decode : DecodeResult
deriving DecidableEq, Repr

/-- Externally observable effects of processing: lines printed to the
observer transcript (stdout) and strings written to the worker input. -/
structure StepOut where
  observer : List String
  writes : List String
deriving DecidableEq, Repr

/-- Sequential composition of observable effects. -/
def seqOut (a b : StepOut) : StepOut := ⟨a.observer ++ b.observer, a.writes ++ b.writes⟩

/-- Answer writes produced by one content item of an assistant turn: a
qualifying AskUserQuestion tool_use whose input decodes produces exactly one
marshalled response line; anything else produces nothing (Go loop body in
processWorkerOutput). -/
def itemWrites (resolver : AskUserQuestionInput → ReviewerOutcome) (it : ContentItem) :
    List String :=
  if it.type = "tool_use" ∧ it.name = "AskUserQuestion" then
    match it.input with
    | none => []
    | some input =>
      [marshalUserResponse (createResponse it.id (askReviewer input.questions (resolver input)).1)
        ++ "\n"]
  else []

/-- Model of the body of the Go read loop for one framed line: skip empty
lines and echo-marker lines; forward undecodable lines verbatim; forward
decodable lines and, for assistant turns whose content decodes, write one
answer per qualifying tool invocation. -/
def processLine (resolver : AskUserQuestionInput → ReviewerOutcome) (l : WorkerLine) : StepOut :=
  if l.raw.length = 0 then ⟨[], []⟩
  else if echoMarker.data.isPrefixOf l.raw.data then ⟨[], []⟩
  else
    match l.decode with
    | .malformed => ⟨[l.raw], []⟩
    | .message ty content =>
      ⟨[l.raw],
        if ty = "assistant" then
          match content with
          | none => []
          | some items => items.flatMap (itemWrites resolver)
        else []⟩

/-- Removal of one trailing carriage return (strings.TrimSuffix of a CR,
applied after the newline has been stripped). -/
def trimCR (l : List Char) : List Char :=
  if l.getLast? = some '\r' then l.dropLast else l

/-- Line framing loop: bufio ReadString up to a newline, strip the newline
and one carriage return; on end of input with a pending partial line the read
returns an EOF error and the loop breaks, so the partial line is dropped. -/
def frameAux (acc : List Char) : List Char → List String
  | [] => []
  | c :: rest =>
    if c = '\n' then ⟨trimCR acc⟩ :: frameAux [] rest
    else frameAux (acc ++ [c]) rest

/-- All complete framed lines of a byte stream. -/
def frame (input : List Char) : List String := frameAux [] input

/-- Effects of processing a list of framed lines in order. -/
def runLines (resolver : AskUserQuestionInput → ReviewerOutcome)
    (dec : String → DecodeResult) : List String → StepOut
  | [] => ⟨[], []⟩
  | l :: ls => seqOut (processLine resolver ⟨l, dec l⟩) (runLines resolver dec ls)

/-- Model of the Go processWorkerOutput over a whole output stream, with the
JSON decoder and the reviewer subprocess passed as parameters. -/
def processWorkerOutput (resolver : AskUserQuestionInput → ReviewerOutcome)
    (dec : String → DecodeResult) (input : List Char) : StepOut :=
  runLines resolver dec (frame input)

/-- Content item of an assistant turn carrying a first AskUserQuestion
invocation (used by the C2 analysis). -/
def c2ItemA : ContentItem :=
  ⟨"tool_use", "AskUserQuestion", "t1", some ⟨[⟨"Q1", "", [⟨"A", "a"⟩], false⟩]⟩⟩

/-- Content item of an assistant turn carrying a second AskUserQuestion
invocation in the same turn (used by the C2 analysis). -/
def c2ItemB : ContentItem :=
  ⟨"tool_use", "AskUserQuestion", "t2", some ⟨[⟨"Q2", "", [⟨"C", "c"⟩], false⟩]⟩⟩

/-- An assistant-turn line whose content holds two qualifying AskUserQuestion
invocations (used by the C2 analysis). -/
def c2Line : WorkerLine := ⟨"x", .message "assistant" (some [c2ItemA, c2ItemB])⟩

/-- The exact answer envelope line the Go orchestrator writes for a
one-question request answered by the failure fallback; on a PTY this very
line is echoed back on the worker output (used by the C3 analysis). -/
def c3EchoLine : String :=
  marshalUserResponse (createResponse "toolu_1"
    (askReviewer [⟨"Proceed?", "", [⟨"Yes", "do it"⟩, ⟨"No", "stop"⟩], false⟩] .failure).1)

/-- A two-question request in which both questions have two options (used by
the C5 analysis). -/
def c5Questions : List Question :=
  [⟨"Q1", "", [⟨"A", "a"⟩, ⟨"B", "b"⟩], false⟩,
   ⟨"Q2", "", [⟨"C", "c"⟩, ⟨"D", "d"⟩], false⟩]

/-! Helper lemmas about the decimal-rendering model. -/

theorem toDecRevFuel_undigits : ∀ f n, n ≤ f → undigits (toDecRevFuel f n) = n := by
  intro f
  induction f with
  | zero =>
    intro n hn
    have h0 : n = 0 := Nat.le_zero.mp hn
    subst h0
    rfl
  | succ f ih =>
    intro n hn
    match n with
    | 0 => rfl
    | k + 1 =>
      have hdiv : (k + 1) / 10 ≤ f := by
        have h1 : (k + 1) / 10 < k + 1 := Nat.div_lt_self (Nat.succ_pos k) (by decide)
        omega
      show undigits (((k + 1) % 10) :: toDecRevFuel f ((k + 1) / 10)) = k + 1
      rw [undigits, ih _ hdiv]
      exact Nat.mod_add_div (k + 1) 10

theorem undigits_toDecRev (n : Nat) : undigits (toDecRev n) = n :=
  toDecRevFuel_undigits n n (Nat.le_refl n)

theorem toDecRevFuel_lt : ∀ f n d, d ∈ toDecRevFuel f n → d < 10 := by
  intro f
  induction f with
  | zero =>
    intro n d h
    simp [toDecRevFuel] at h
  | succ f ih =>
    intro n d h
    match n with
    | 0 => simp [toDecRevFuel] at h
    | k + 1 =>
      rw [toDecRevFuel] at h
      rcases List.mem_cons.mp h with h1 | h2
      · subst h1
        exact Nat.mod_lt _ (by decide)
      · exact ih _ _ h2

theorem digitChar_zero_inj : ∀ d, d < 10 → digitChar d = '0' → d = 0 := by decide

theorem sprintfD_eq_zero {i : Nat} (h : sprintfD i = "0") : i = 0 := by
  by_contra hi
  unfold sprintfD at h
  rw [if_neg hi] at h
  have hdata : (toDecRev i).reverse.map digitChar = ['0'] := congrArg String.data h
  rcases hc : (toDecRev i).reverse with _ | ⟨d, L⟩
  · rw [hc] at hdata
    simp at hdata
  · rw [hc] at hdata
    simp only [List.map_cons, List.cons.injEq] at hdata
    obtain ⟨hd0, hL⟩ := hdata
    have hLnil : L = [] := by
      cases L with
      | nil => rfl
      | cons a as => simp at hL
    subst hLnil
    have htd : toDecRev i = [d] := by
      have := congrArg List.reverse hc
      simpa using this
    have hdlt : d < 10 := toDecRevFuel_lt i i d (by rw [← toDecRev, htd]; exact List.mem_singleton.mpr rfl)
    have hdz : d = 0 := digitChar_zero_inj d hdlt hd0
    have : i = 0 := by
      have hu := undigits_toDecRev i
      rw [htd, hdz] at hu
      simpa [undigits] using hu.symm
    exact hi this

theorem defaultAnswers_length (n : Nat) : (defaultAnswers n).length = n := by
  simp [defaultAnswers]

theorem defaultAnswers_getElem (n i : Nat) :
    (defaultAnswers n)[i]? = if i < n then some (qKey i, "0") else none := by
  unfold defaultAnswers
  rw [List.getElem?_map]
  by_cases h : i < n
  · rw [List.getElem?_range h]
    simp [h]
  · rw [List.getElem?_eq_none (by simpa using Nat.le_of_not_lt h)]
    simp [h]

theorem qKey_eq_q0_iff (i : Nat) : qKey i = "q0" ↔ i = 0 := by
  constructor
  · intro h
    apply sprintfD_eq_zero
    have hdata : ('q' :: (sprintfD i).data) = ['q', '0'] := by
      have h1 : (qKey i).data = ("q0" : String).data := congrArg String.data h
      simpa [qKey, String.data] using h1
    have h2 : (sprintfD i).data = ['0'] := by
      injection hdata
    apply String.ext
    rw [h2]
  · intro h
    subst h
    decide

theorem defaultAnswers_any_q0 {n : Nat} (hn : 1 ≤ n) :
    (defaultAnswers n).any (fun p => decide (p.1 = "q0")) = true := by
  rw [List.any_eq_true]
  refine ⟨(qKey 0, "0"), ?_, by decide⟩
  exact List.mem_map.mpr ⟨0, List.mem_range.mpr hn, rfl⟩

theorem mapSet_defaultAnswers {n : Nat} (hn : 1 ≤ n) (v : String) :
    mapSet (defaultAnswers n) "q0" v =
      (defaultAnswers n).map (fun p => if p.1 = "q0" then (p.1, v) else p) := by
  unfold mapSet
  rw [if_pos (defaultAnswers_any_q0 hn)]

theorem mapSet_defaultAnswers_length {n : Nat} (hn : 1 ≤ n) (v : String) :
    (mapSet (defaultAnswers n) "q0" v).length = n := by
  rw [mapSet_defaultAnswers hn v, List.length_map, defaultAnswers_length]

theorem mapSet_defaultAnswers_getElem {n : Nat} (hn : 1 ≤ n) (v : String) (i : Nat) :
    (mapSet (defaultAnswers n) "q0" v)[i]? =
      if i < n then (if i = 0 then some ("q0", v) else some (qKey i, "0")) else none := by
  rw [mapSet_defaultAnswers hn v, List.getElem?_map, defaultAnswers_getElem]
  by_cases h : i < n
  · rw [if_pos h, if_pos h]
    by_cases h0 : i = 0
    · subst h0
      have hq : qKey 0 = "q0" := by decide
      simp [hq]
    · have hne : ¬(qKey i = "q0") := fun hq => h0 ((qKey_eq_q0_iff i).mp hq)
      simp [hne, h0]
  · simp [h]

theorem mapSet_defaultAnswers_zero (v : String) :
    mapSet (defaultAnswers 0) "q0" v = [("q0", v)] := by
  simp [mapSet, defaultAnswers]

theorem askReviewer_failure_eq (qs : List Question) :
    askReviewer qs .failure = (defaultAnswers qs.length, true) := rfl

theorem askReviewer_success_digit (qs : List Question) (out : String) (d : Nat)
    (h : firstDigit (goTrim out).data = some d) :
    (askReviewer qs (.success out)).1 = mapSet (defaultAnswers qs.length) "q0" (sprintfD d) := by
  unfold askReviewer
  simp [h]

theorem askReviewer_success_none (qs : List Question) (out : String)
    (h : firstDigit (goTrim out).data = none) :
    (askReviewer qs (.success out)).1 = defaultAnswers qs.length := by
  unfold askReviewer
  simp [h]

theorem tsSelectedIndex_lt (q : Question) (answerText : String) (h : q.options ≠ []) :
    tsSelectedIndex q answerText < q.options.length := by
  unfold tsSelectedIndex
  have hl : 0 < q.options.length := List.length_pos.mpr h
  by_cases hc : q.options.length ≤ (match firstDigit answerText.data with | some d => d | none => 0)
  · simp only [if_pos hc]
    exact hl
  · simp only [if_neg hc]
    omega

theorem mapSet_of_notMem {α : Type} (m : List (String × α)) (k : String) (v : α)
    (h : ∀ p ∈ m, p.1 ≠ k) : mapSet m k v = m ++ [(k, v)] := by
  unfold mapSet
  rw [if_neg]
  intro hc
  rw [List.any_eq_true] at hc
  obtain ⟨p, hp, hpk⟩ := hc
  exact h p hp (of_decide_eq_true hpk)

theorem foldl_mapSet_map {α : Type} (f : Question → α) :
    ∀ (qs : List Question) (acc : List (String × α)),
    qs.Pairwise (fun a b => a.question ≠ b.question) →
    (∀ q ∈ qs, ∀ p ∈ acc, p.1 ≠ q.question) →
    qs.foldl (fun acc q => mapSet acc q.question (f q)) acc
      = acc ++ qs.map (fun q => (q.question, f q)) := by
  intro qs
  induction qs with
  | nil =>
    intro acc _ _
    simp
  | cons q rest ih =>
    intro acc hpw hacc
    rw [List.foldl_cons,
      mapSet_of_notMem acc q.question (f q) (fun p hp => hacc q (List.mem_cons_self q rest) p hp)]
    rw [ih (acc ++ [(q.question, f q)]) (List.Pairwise.of_cons hpw) ?_]
    · simp
    · intro q2 hq2 p hp
      rcases List.mem_append.mp hp with hpa | hpb
      · exact hacc q2 (List.mem_cons_of_mem q hq2) p hpa
      · have hpq : p = (q.question, f q) := by simpa using hpb
        rw [hpq]
        exact (List.pairwise_cons.mp hpw).1 q2 hq2

theorem tsAskReviewer_failure_eq (qs : List Question)
    (h : qs.Pairwise (fun a b => a.question ≠ b.question)) :
    tsAskReviewer qs .failure = qs.map (fun q => (q.question, tsFailValue q)) := by
  unfold tsAskReviewer
  rw [foldl_mapSet_map tsFailValue qs [] h (by simp)]
  simp

theorem frameAux_no_newline : ∀ (t : List Char), '\n' ∉ t → ∀ acc, frameAux acc t = []
  | [], _, _ => rfl
  | c :: rest, h, acc => by
    rw [frameAux]
    have hc : ¬c = '\n' := fun he => h (he ▸ List.mem_cons_self c rest)
    rw [if_neg hc]
    exact frameAux_no_newline rest (fun hm => h (List.mem_cons_of_mem c hm)) _

theorem frameAux_append_no_newline (t : List Char) (h : '\n' ∉ t) :
    ∀ (s : List Char) (acc : List Char), frameAux acc (s ++ t) = frameAux acc s := by
  intro s
  induction s with
  | nil =>
    intro acc
    have h1 : frameAux acc ([] ++ t) = [] := by
      rw [List.nil_append]
      exact frameAux_no_newline t h acc
    rw [h1]
    rfl
  | cons c s2 ih =>
    intro acc
    rw [List.cons_append]
    simp only [frameAux]
    by_cases hc : c = '\n'
    · simp [hc, ih]
    · simp [hc, ih]

/-! Claim theorems. -/

/-- C9: every worker output line beginning with the exact echo marker is
unconditionally discarded before classification: it is not forwarded to the
observer transcript and produces no answer write, regardless of how it would
decode. -/
theorem C9_echo_marker_discarded (resolver : AskUserQuestionInput → ReviewerOutcome)
    (l : WorkerLine) (h : echoMarker.data.isPrefixOf l.raw.data = true) :
    processLine resolver l = ⟨[], []⟩ := by
  have hpre : echoMarker.data <+: l.raw.data := List.isPrefixOf_iff_prefix.mp h
  obtain ⟨t, ht⟩ := hpre
  have hne : ¬l.raw.length = 0 := by
    intro h0
    have hdata : l.raw.data = [] := List.length_eq_zero.mp h0
    rw [hdata] at ht
    have hnil := List.append_eq_nil.mp ht
    exact absurd hnil.1 (by decide)
  unfold processLine
  rw [if_neg hne, if_pos h]

/-- C9 witness: a concrete user_input_result line is dropped entirely. -/
theorem C9_echo_marker_discarded_witness :
    echoMarker.data.isPrefixOf
        ("\x7b\"type\":\"user_input_result\",\"tool_use_id\":\"t\"\x7d" : String).data = true
    ∧ processLine (fun _ => .failure)
        ⟨"\x7b\"type\":\"user_input_result\",\"tool_use_id\":\"t\"\x7d", .malformed⟩ = ⟨[], []⟩ :=
  ⟨by decide, C9_echo_marker_discarded (fun _ => .failure) _ (by decide)⟩

/-- C6: a non-empty framed line that does not carry the echo marker and fails
structured envelope decoding is forwarded to the observer unchanged, and
produces no other effect; unparseable input is never dropped. -/
theorem C6_undecodable_line_forwarded (resolver : AskUserQuestionInput → ReviewerOutcome)
    (raw : String) (h1 : raw ≠ "")
    (h2 : echoMarker.data.isPrefixOf raw.data = false) :
    processLine resolver ⟨raw, .malformed⟩ = ⟨[raw], []⟩ := by
  have hne : ¬raw.length = 0 := by
    intro h0
    exact h1 (String.ext (List.length_eq_zero.mp h0))
  unfold processLine
  rw [if_neg hne]
  simp [h2]

/-- C6 witness: a concrete non-JSON line is forwarded verbatim. -/
theorem C6_undecodable_line_forwarded_witness :
    ("free-form worker text" : String) ≠ ""
    ∧ echoMarker.data.isPrefixOf ("free-form worker text" : String).data = false
    ∧ processLine (fun _ => .failure) ⟨"free-form worker text", .malformed⟩
        = ⟨["free-form worker text"], []⟩ :=
  ⟨by decide, by decide,
    C6_undecodable_line_forwarded (fun _ => .failure) _ (by decide) (by decide)⟩

/-- C3: the echo guard does not recognize the answer envelope the
orchestrator actually writes. createResponse produces a line starting with
the text type colon user, not with the user_input_result marker, so when the
PTY echoes that line back it is forwarded to the observer transcript and
classified instead of being discarded. -/
theorem C3_echo_of_answer_not_discarded :
    echoMarker.data.isPrefixOf c3EchoLine.data = false
    ∧ (processLine (fun _ => .failure) ⟨c3EchoLine, .message "user" none⟩).observer
        = [c3EchoLine]
    ∧ (processLine (fun _ => .failure) ⟨c3EchoLine, .message "user" none⟩).writes = [] := by
  refine ⟨by decide, ?_, ?_⟩ <;> decide

/-- C10: a trailing partial line not terminated by a newline is discarded at
EOF: it contributes nothing to the observer transcript and triggers no
classification or answer write. -/
theorem C10_trailing_partial_line_discarded (resolver : AskUserQuestionInput → ReviewerOutcome)
    (dec : String → DecodeResult) (s t : List Char) (h : '\n' ∉ t) :
    processWorkerOutput resolver dec (s ++ t) = processWorkerOutput resolver dec s := by
  unfold processWorkerOutput frame
  rw [frameAux_append_no_newline t h s []]

/-- C10 witness: appending unterminated bytes changes nothing. -/
theorem C10_trailing_partial_line_discarded_witness :
    '\n' ∉ ("tail with no newline" : String).data
    ∧ processWorkerOutput (fun _ => .failure) (fun _ => .malformed)
        (("line1\n" : String).data ++ ("tail with no newline" : String).data)
      = processWorkerOutput (fun _ => .failure) (fun _ => .malformed) ("line1\n" : String).data :=
  ⟨by decide,
    C10_trailing_partial_line_discarded (fun _ => .failure) (fun _ => .malformed) _ _ (by decide)⟩

theorem itemWrites_flatMap_length (resolver : AskUserQuestionInput → ReviewerOutcome) :
    ∀ items : List ContentItem,
    (items.flatMap (itemWrites resolver)).length =
      (items.filter (fun it =>
        decide (it.type = "tool_use" ∧ it.name = "AskUserQuestion" ∧ it.input.isSome = true))).length := by
  intro items
  induction items with
  | nil => rfl
  | cons it rest ih =>
    rw [List.flatMap_cons, List.length_append, ih, List.filter_cons]
    by_cases hq : it.type = "tool_use" ∧ it.name = "AskUserQuestion"
    · cases hin : it.input with
      | none =>
        have h1 : itemWrites resolver it = [] := by
          unfold itemWrites
          rw [if_pos hq, hin]
        have h2 : decide (it.type = "tool_use" ∧ it.name = "AskUserQuestion"
            ∧ it.input.isSome = true) = false := by
          simp [hin]
        simp [h1, h2]
      | some inp =>
        have h1 : itemWrites resolver it =
            [marshalUserResponse (createResponse it.id
              (askReviewer inp.questions (resolver inp)).1) ++ "\n"] := by
          unfold itemWrites
          rw [if_pos hq, hin]
        have h2 : decide (it.type = "tool_use" ∧ it.name = "AskUserQuestion"
            ∧ it.input.isSome = true) = true := by
          simp [hq.1, hq.2, hin]
        simp [h1, h2]
        rw [if_pos hq]
        simp [Nat.add_comm]
    · have h1 : itemWrites resolver it = [] := by
        unfold itemWrites
        rw [if_neg hq]
      have h2 : decide (it.type = "tool_use" ∧ it.name = "AskUserQuestion"
          ∧ it.input.isSome = true) = false := by
        simp only [decide_eq_false_iff_not]
        intro hc
        exact hq ⟨hc.1, hc.2.1⟩
      simp [h1, h2]

/-- C2: the claim fails on the code: in a turn carrying two qualifying
AskUserQuestion invocations, the Go loop acts on both of them, producing a
second resolve cycle and a second answer write addressed to the second
invocation. -/
theorem C2_counterexample :
    (processLine (fun _ => .failure) c2Line).writes.length = 2
    ∧ (itemWrites (fun _ => .failure) c2ItemB).length = 1
    ∧ (processLine (fun _ => .failure) c2Line).writes[1]?
        = (itemWrites (fun _ => .failure) c2ItemB)[0]? := by
  refine ⟨?_, ?_, ?_⟩ <;> decide

/-- C2 amended: in an assistant turn whose content decodes, the orchestrator
acts upon every qualifying AskUserQuestion invocation in order (not only the
first): each qualifying invocation whose input decodes contributes exactly
one answer write. -/
theorem C2_every_invocation_acted_upon (resolver : AskUserQuestionInput → ReviewerOutcome)
    (raw : String) (items : List ContentItem) (h1 : raw ≠ "")
    (h2 : echoMarker.data.isPrefixOf raw.data = false) :
    (processLine resolver ⟨raw, .message "assistant" (some items)⟩).writes
        = items.flatMap (itemWrites resolver)
    ∧ (processLine resolver ⟨raw, .message "assistant" (some items)⟩).writes.length
        = (items.filter (fun it =>
            decide (it.type = "tool_use" ∧ it.name = "AskUserQuestion"
              ∧ it.input.isSome = true))).length := by
  have hne : ¬raw.length = 0 := fun h0 => h1 (String.ext (List.length_eq_zero.mp h0))
  have hw : (processLine resolver ⟨raw, .message "assistant" (some items)⟩).writes
      = items.flatMap (itemWrites resolver) := by
    unfold processLine
    rw [if_neg hne]
    simp [h2]
  exact ⟨hw, by rw [hw]; exact itemWrites_flatMap_length resolver items⟩

/-- C2 witness: the amended statement evaluated on a concrete two-invocation
turn. -/
theorem C2_every_invocation_acted_upon_witness :
    ("y" : String) ≠ ""
    ∧ echoMarker.data.isPrefixOf ("y" : String).data = false
    ∧ (processLine (fun _ => .failure)
          ⟨"y", .message "assistant" (some [c2ItemA, c2ItemB])⟩).writes.length
        = ([c2ItemA, c2ItemB].filter (fun it =>
            decide (it.type = "tool_use" ∧ it.name = "AskUserQuestion"
              ∧ it.input.isSome = true))).length :=
  ⟨by decide, by decide,
    (C2_every_invocation_acted_upon (fun _ => .failure) "y" [c2ItemA, c2ItemB]
      (by decide) (by decide)).2⟩

/-- C4: when the resolver invocation fails, the Go askReviewer returns the
default answer set selecting index 0 for every question, with the diagnostic
emitted, and the TS askReviewer maps every question to its first option
label; neither escalates the failure. -/
theorem C4_resolver_failure_fallback (qs : List Question)
    (hpw : qs.Pairwise (fun a b => a.question ≠ b.question)) :
    (askReviewer qs .failure).2 = true
    ∧ (askReviewer qs .failure).1.length = qs.length
    ∧ (∀ i, i < qs.length → (askReviewer qs .failure).1[i]? = some (qKey i, "0"))
    ∧ tsAskReviewer qs .failure = qs.map (fun q => (q.question, tsFailValue q))
    ∧ (∀ q ∈ qs, ∀ o rest, q.options = o :: rest → o.label ≠ "" →
        tsFailValue q = some o.label) := by
  refine ⟨rfl, defaultAnswers_length qs.length, ?_, tsAskReviewer_failure_eq qs hpw, ?_⟩
  · intro i hi
    show (defaultAnswers qs.length)[i]? = some (qKey i, "0")
    rw [defaultAnswers_getElem, if_pos hi]
  · intro q hq o rest hopt hlbl
    unfold tsFailValue
    rw [hopt]
    simp [jsOr, hlbl]

/-- C4 witness: the failure fallback evaluated on a concrete two-question
request. -/
theorem C4_resolver_failure_fallback_witness :
    ([⟨"W1", "", [⟨"L1", "d1"⟩], false⟩, ⟨"W2", "", [⟨"L2", "d2"⟩, ⟨"L3", "d3"⟩], false⟩]
        : List Question).Pairwise (fun a b => a.question ≠ b.question)
    ∧ (askReviewer [⟨"W1", "", [⟨"L1", "d1"⟩], false⟩,
        ⟨"W2", "", [⟨"L2", "d2"⟩, ⟨"L3", "d3"⟩], false⟩] .failure).2 = true
    ∧ tsAskReviewer [⟨"W1", "", [⟨"L1", "d1"⟩], false⟩,
        ⟨"W2", "", [⟨"L2", "d2"⟩, ⟨"L3", "d3"⟩], false⟩] .failure
      = ([⟨"W1", "", [⟨"L1", "d1"⟩], false⟩,
        ⟨"W2", "", [⟨"L2", "d2"⟩, ⟨"L3", "d3"⟩], false⟩] : List Question).map
          (fun q => (q.question, tsFailValue q)) :=
  ⟨by decide,
    (C4_resolver_failure_fallback _ (by decide)).1,
    (C4_resolver_failure_fallback _ (by decide)).2.2.2.1⟩

/-- C5: the claim fails on the TS variant: with two two-option questions and
resolver output 2, the TS askReviewer assigns the parsed index 1 to every
question, not index 0 to every question after the first; the produced record
maps the second question to its second option label. -/
theorem C5_counterexample :
    tsSelectedIndices c5Questions "2" = [1, 1]
    ∧ tsSelectedIndices c5Questions "2" ≠ [1, 0]
    ∧ tsAskReviewer c5Questions (.success "2") = [("Q1", some "B"), ("Q2", some "D")] := by
  refine ⟨?_, ?_, ?_⟩ <;> decide

/-- C5 amended: on a successful resolver invocation the Go askReviewer
assigns digit minus one (unclamped) to the first question only and index 0 to
every other question, and index 0 to every question when the trimmed output
has no digit 1..9; the TS askReviewer instead assigns the same parsed index,
clamped per question to its option count, to every question of the request. -/
theorem C5_digit_parsing_shape (qs : List Question) (out : String) (hn : 1 ≤ qs.length) :
    (∀ d, firstDigit (goTrim out).data = some d →
      (askReviewer qs (.success out)).1[0]? = some ("q0", sprintfD d)
      ∧ ∀ i, 1 ≤ i → (askReviewer qs (.success out)).1[i]? =
          if i < qs.length then some (qKey i, "0") else none)
    ∧ (firstDigit (goTrim out).data = none →
      ∀ i, (askReviewer qs (.success out)).1[i]? =
        if i < qs.length then some (qKey i, "0") else none)
    ∧ tsSelectedIndices qs out = qs.map (fun q =>
        match firstDigit (goTrim out).data with
        | some d => if q.options.length ≤ d then 0 else d
        | none => 0) := by
  refine ⟨?_, ?_, ?_⟩
  · intro d hd
    rw [askReviewer_success_digit qs out d hd]
    constructor
    · rw [mapSet_defaultAnswers_getElem hn _ 0, if_pos (by omega : 0 < qs.length), if_pos rfl]
    · intro i hi
      rw [mapSet_defaultAnswers_getElem hn _ i]
      by_cases h : i < qs.length
      · rw [if_pos h, if_pos h, if_neg (by omega : ¬i = 0)]
      · rw [if_neg h, if_neg h]
  · intro h0 i
    rw [askReviewer_success_none qs out h0, defaultAnswers_getElem]
  · unfold tsSelectedIndices tsSelectedIndex
    apply List.map_congr_left
    intro q _
    cases hfd : firstDigit (goTrim out).data with
    | none =>
      simp only []
      by_cases h : q.options.length ≤ 0
      · rw [if_pos h]
      · rw [if_neg h]
    | some d =>
      simp only []

/-- C5 witness: the amended statement evaluated on the concrete two-question
request. -/
theorem C5_digit_parsing_shape_witness :
    1 ≤ c5Questions.length
    ∧ tsSelectedIndices c5Questions "2" = c5Questions.map (fun q =>
        match firstDigit (goTrim "2").data with
        | some d => if q.options.length ≤ d then 0 else d
        | none => 0) :=
  ⟨by decide, (C5_digit_parsing_shape c5Questions "2" (by decide)).2.2⟩

/-- C1: the claim fails on the Go code: with a single one-option question and
resolver output 9, askReviewer stores index 8 for the first question without
any range check, which is not a valid index for that question's single
option. -/
theorem C1_counterexample :
    (askReviewer [⟨"Proceed?", "", [⟨"Yes", "do it"⟩], false⟩] (.success "9")).1
        = [("q0", "8")]
    ∧ ¬(8 < ([⟨"Yes", "do it"⟩] : List QOption).length) := by
  refine ⟨?_, ?_⟩ <;> decide

/-- C1 amended: the Go askReviewer always returns exactly one entry per
question; every entry after the first is index 0 (valid for non-empty
options), and all entries are 0 on failure or digit-free output; but the
first entry on success carries the parsed digit minus one without any range
check. Only the TS variant clamps the parsed index to the question's option
count. -/
theorem C1_answer_set_shape (qs : List Question) (outcome : ReviewerOutcome)
    (hn : 1 ≤ qs.length) :
    (askReviewer qs outcome).1.length = qs.length
    ∧ (∀ i, 1 ≤ i → (askReviewer qs outcome).1[i]? =
        if i < qs.length then some (qKey i, "0") else none)
    ∧ (outcome = .failure → ∀ i, (askReviewer qs outcome).1[i]? =
        if i < qs.length then some (qKey i, "0") else none)
    ∧ (∀ out, outcome = .success out → firstDigit (goTrim out).data = none →
        ∀ i, (askReviewer qs outcome).1[i]? =
          if i < qs.length then some (qKey i, "0") else none)
    ∧ (∀ out d, outcome = .success out → firstDigit (goTrim out).data = some d →
        (askReviewer qs outcome).1[0]? = some ("q0", sprintfD d))
    ∧ (∀ (q : Question) (ans : String), q.options ≠ [] →
        tsSelectedIndex q ans < q.options.length) := by
  cases outcome with
  | failure =>
    refine ⟨defaultAnswers_length _, ?_, ?_, ?_, ?_, ?_⟩
    · intro i _
      exact defaultAnswers_getElem _ i
    · intro _ i
      exact defaultAnswers_getElem _ i
    · intro out hout
      exact ReviewerOutcome.noConfusion hout
    · intro out d hout
      exact ReviewerOutcome.noConfusion hout
    · intro q ans h
      exact tsSelectedIndex_lt q ans h
  | success out =>
    cases hfd : firstDigit (goTrim out).data with
    | none =>
      have he := askReviewer_success_none qs out hfd
      refine ⟨?_, ?_, ?_, ?_, ?_, ?_⟩
      · rw [he, defaultAnswers_length]
      · intro i _
        rw [he, defaultAnswers_getElem]
      · intro hc
        exact ReviewerOutcome.noConfusion hc
      · intro out2 hout2 h0 i
        injection hout2 with hoo
        subst hoo
        rw [he, defaultAnswers_getElem]
      · intro out2 d hout2 hd
        injection hout2 with hoo
        subst hoo
        rw [hfd] at hd
        exact Option.noConfusion hd
      · intro q ans h
        exact tsSelectedIndex_lt q ans h
    | some d =>
      have he := askReviewer_success_digit qs out d hfd
      refine ⟨?_, ?_, ?_, ?_, ?_, ?_⟩
      · rw [he, mapSet_defaultAnswers_length hn]
      · intro i hi
        rw [he, mapSet_defaultAnswers_getElem hn]
        by_cases h : i < qs.length
        · rw [if_pos h, if_pos h, if_neg (by omega : ¬i = 0)]
        · rw [if_neg h, if_neg h]
      · intro hc
        exact ReviewerOutcome.noConfusion hc
      · intro out2 hout2 h0 i
        injection hout2 with hoo
        subst hoo
        rw [hfd] at h0
        exact Option.noConfusion h0
      · intro out2 d2 hout2 hd2
        injection hout2 with hoo
        subst hoo
        rw [hfd] at hd2
        injection hd2 with hdd
        subst hdd
        rw [he, mapSet_defaultAnswers_getElem hn, if_pos (by omega : 0 < qs.length), if_pos rfl]
      · intro q ans h
        exact tsSelectedIndex_lt q ans h

/-- C1 witness: the amended statement evaluated on a concrete two-question
request with output 3. -/
theorem C1_answer_set_shape_witness :
    1 ≤ ([⟨"V1", "", [⟨"M1", "e1"⟩, ⟨"M2", "e2"⟩, ⟨"M3", "e3"⟩], false⟩,
          ⟨"V2", "", [⟨"M4", "e4"⟩], false⟩] : List Question).length
    ∧ (askReviewer [⟨"V1", "", [⟨"M1", "e1"⟩, ⟨"M2", "e2"⟩, ⟨"M3", "e3"⟩], false⟩,
          ⟨"V2", "", [⟨"M4", "e4"⟩], false⟩] (.success "3")).1.length
        = ([⟨"V1", "", [⟨"M1", "e1"⟩, ⟨"M2", "e2"⟩, ⟨"M3", "e3"⟩], false⟩,
          ⟨"V2", "", [⟨"M4", "e4"⟩], false⟩] : List Question).length :=
  ⟨by decide,
    (C1_answer_set_shape [⟨"V1", "", [⟨"M1", "e1"⟩, ⟨"M2", "e2"⟩, ⟨"M3", "e3"⟩], false⟩,
      ⟨"V2", "", [⟨"M4", "e4"⟩], false⟩] (.success "3") (by decide)).1⟩
